import Mathlib

/-!
Verification of the statistical core of `jensen_streamlit.py` (Stock Beta &
Jensen's Alpha calculator).

The program's pipeline is: fetch two date-indexed price series, compute
percentage returns with `pct_change() * 100`, inner-join the two return
series on date dropping missing rows, subtract a periodic risk-free rate
from both columns, fit an ordinary least squares model
`excess_stock = alpha + beta * excess_market`, and render metrics,
interpretation labels and charts, with one `try/except` boundary around
the whole pass.

Embedding conventions:
* A price series is a `List (ℕ × ℝ)` of (date, adjusted close) rows in
  index order; dates are abstracted as naturals.  Python floats are
  modelled as real numbers.
* A return series (the result of `pct_change() * 100`) is a
  `List (ℕ × Option ℝ)`; `none` models pandas `NaN` (the first row of
  `pct_change` is always `NaN`).
* The arithmetic definitions are generic over a `Field` so that they stay
  executable; the theorems instantiate them at `ℝ`.
-/

namespace Jensen

/-- `pct_change() * 100` on a date-indexed price series
(`stock_data['Adj Close'].pct_change() * 100`, lines 55-56).  pandas keeps
the index, puts `NaN` at the first row, and computes
`price[t] / price[t-1] - 1` for every later row; the source multiplies the
whole series by 100. -/
def pctChange {K : Type} [Field K] (s : List (ℕ × K)) : List (ℕ × Option K) :=
  match s with
  | [] => []
  | (d0, _) :: _ =>
    (d0, none) :: (s.zip s.tail).map (fun q => (q.2.1, some ((q.2.2 / q.1.2 - 1) * 100)))

/-- The defined (non-`NaN`) rows of a return series: its Return Points. -/
def returnPoints {K : Type} (s : List (ℕ × Option K)) : List (ℕ × K) :=
  s.filterMap (fun p => p.2.map (fun v => (p.1, v)))

/-- The dates of a return series on which the return is defined. -/
def definedDates {K : Type} (s : List (ℕ × Option K)) : List ℕ :=
  (returnPoints s).map Prod.fst

/-- Look a date up in a return series (pandas index alignment: the series
is indexed by date, assumed unique).  Returns `none` both when the date is
absent and when the stored value is `NaN`. -/
def lookupRet {K : Type} (d : ℕ) : List (ℕ × Option K) → Option K
  | [] => none
  | (d2, v) :: t => if d = d2 then v else lookupRet d t

/-- `pd.DataFrame({"Stock_Return": ..., "Market_Return": ...}).dropna()`
(lines 59-62): align the two return series on date and keep exactly the
rows where both values are present and non-missing.  A row of the result
is `(date, stock return, market return)`. -/
def alignReturns {K : Type} (a b : List (ℕ × Option K)) : List (ℕ × K × K) :=
  a.filterMap (fun p =>
    match p.2, lookupRet p.1 b with
    | some x, some y => some (p.1, x, y)
    | _, _ => none)

/-- `Σ x` over the observation list (each element is one `(x, y)`
observation). -/
def sumX {K : Type} [Field K] (data : List (K × K)) : K :=
  (data.map Prod.fst).sum

/-- `Σ y` over the observation list. -/
def sumY {K : Type} [Field K] (data : List (K × K)) : K :=
  (data.map Prod.snd).sum

/-- `Σ x²` over the observation list. -/
def sumXX {K : Type} [Field K] (data : List (K × K)) : K :=
  (data.map (fun p => p.1 * p.1)).sum

/-- `Σ x·y` over the observation list. -/
def sumXY {K : Type} [Field K] (data : List (K × K)) : K :=
  (data.map (fun p => p.1 * p.2)).sum

/-- Denominator of the OLS slope, `n·Σx² − (Σx)²`; the fit is defined
exactly when it is nonzero (equivalently, the `x` column is not
constant). -/
def olsDenom {K : Type} [Field K] (data : List (K × K)) : K :=
  (data.length : K) * sumXX data - sumX data * sumX data

/-- The OLS slope of `y` on `x` with intercept:
`(n·Σxy − Σx·Σy) / (n·Σx² − (Σx)²)`. -/
def olsBeta {K : Type} [Field K] (data : List (K × K)) : K :=
  ((data.length : K) * sumXY data - sumX data * sumY data) / olsDenom data

/-- The OLS intercept: `(Σy − beta·Σx) / n`. -/
def olsAlpha {K : Type} [Field K] (data : List (K × K)) : K :=
  (sumY data - olsBeta data * sumX data) / (data.length : K)

/-- Sum of squared errors of the affine model `y = a + b * x` on the
observation list `data`. -/
def sse {K : Type} [Field K] (data : List (K × K)) (a b : K) : K :=
  (data.map (fun p => (p.2 - a - b * p.1) * (p.2 - a - b * p.1))).sum

/-- Centered total sum of squares of the `y` column of `data`. -/
def tssCentered {K : Type} [Field K] (data : List (K × K)) : K :=
  (data.map (fun p =>
    (p.2 - (data.map Prod.snd).sum / (data.length : K)) *
    (p.2 - (data.map Prod.snd).sum / (data.length : K)))).sum

/-- Closed-form unweighted ordinary least squares fit with intercept of
`y` on `x` over the observation list `data`.  This embeds the library call
`sm.OLS(y, sm.add_constant(X)).fit()` (lines 70-71): for a full-rank
design the pseudo-inverse solution used by statsmodels is exactly the
normal-equation solution, and `model.rsquared` for a model with a
constant is `1 - model.ssr / model.centered_tss`.  Returns
`(beta, alpha, rsquared)` = (slope `model.params["Market_Return"]`,
intercept `model.params["const"]`, `model.rsquared`). -/
def olsFit {K : Type} [Field K] (data : List (K × K)) : K × K × K :=
  (olsBeta data, olsAlpha data,
    1 - sse data (olsAlpha data) (olsBeta data) / tssCentered data)

/-- `risk_free_rate_monthly = (1 + risk_free_rate / 100) ** (1 / 12) - 1`
(line 65).  The exponent is the fixed constant `1/12`; the annual rate `r`
is a percentage. -/
noncomputable def riskFreeRateMonthly (r : ℝ) : ℝ :=
  (1 + r / 100) ^ ((1 : ℝ) / 12) - 1

/-- Excess return: a return minus `risk_free_rate_monthly * 100`
(lines 68-69). -/
noncomputable def excessReturn (r x : ℝ) : ℝ :=
  x - riskFreeRateMonthly r * 100

/-- The regression data built from the aligned rows (lines 68-69):
`X = returns_df["Market_Return"] - risk_free_rate_monthly * 100` and
`y = returns_df["Stock_Return"] - risk_free_rate_monthly * 100`; each
observation is `(excess market, excess stock)`. -/
noncomputable def excessData (r : ℝ) (rows : List (ℕ × ℝ × ℝ)) : List (ℝ × ℝ) :=
  rows.map (fun p => (excessReturn r p.2.2, excessReturn r p.2.1))

/-- Modelled from the spec (§4.2): the periodic-rate conversion exactly as
the spec words it, `periodic_rate = (1 + annual_rate/100)^(1/12) - 1`, to
be compared with the source's `riskFreeRateMonthly`. -/
noncomputable def specPeriodicRate (r : ℝ) : ℝ :=
  (1 + r / 100) ^ ((1 : ℝ) / 12) - 1

/-- Shift both coordinates of every observation by the same additive
constant `s` — what happens to the excess-return data when the periodic
risk-free rate grows by `s / 100`. -/
def shiftData {K : Type} [Field K] (s : K) (data : List (K × K)) : List (K × K) :=
  data.map (fun p => (p.1 - s, p.2 - s))

/-- The whole Excess Return Regressor (lines 65-71): subtract the periodic
rate from both columns and fit OLS of excess stock on excess market,
returning `(Beta, Jensen's Alpha, R-squared)`. -/
noncomputable def jensenRegression (r : ℝ) (rows : List (ℕ × ℝ × ℝ)) : ℝ × ℝ × ℝ :=
  olsFit (excessData r rows)

/-- Interpretation of Beta (lines 92-96): strictly greater than 1 is
aggressive, strictly less than 1 is defensive, exactly 1 is neutral.  The
strings are the exact markdown strings of the source. -/
noncomputable def betaInterpretation (beta : ℝ) : String :=
  if beta > 1 then "🔥 **Aggressive**"
  else if beta < 1 then "❄️ **Defensive**"
  else "➡️ **Neutral**"

/-- Interpretation of Alpha (lines 98-102). -/
noncomputable def alphaInterpretation (alpha : ℝ) : String :=
  if alpha > 0 then "📈 **Outperforming**"
  else if alpha < 0 then "📉 **Underperforming**"
  else "➡️ **Neutral**"

/-- Python's `round(x, 4)`: round to 4 decimal places, ties to even
(banker's rounding), modelled over the reals. -/
noncomputable def pyRound4 (x : ℝ) : ℝ :=
  let m := x * 10000
  let f : ℤ := Int.floor m
  let r : ℤ :=
    if m - (f : ℝ) < 1 / 2 then f
    else if (1 : ℝ) / 2 < m - (f : ℝ) then f + 1
    else if 2 ∣ f then f else f + 1
  (r : ℝ) / 10000

/-- The three displayed metrics (lines 78-82): Beta, Jensen's Alpha and
R-squared, each rounded to 4 decimal places for display. -/
noncomputable def displayedMetrics (beta alpha r2 : ℝ) : ℝ × ℝ × ℝ :=
  (pyRound4 beta, pyRound4 alpha, pyRound4 r2)

/-- The scatter figure of lines 111-113: `px.scatter(returns_df,
x="Market_Return", y="Stock_Return", trendline="ols")`.  The x column is
the raw market return column of `returns_df`, the y column the raw stock
return column, and plotly's `trendline="ols"` fits an ordinary least
squares line of the y column on the x column of that same data. -/
structure ScatterFig where
  xs : List ℝ
  ys : List ℝ
  trendSlope : ℝ
  trendIntercept : ℝ

/-- Build the scatter figure from the aligned rows, as lines 111-113 do. -/
noncomputable def makeScatterFig (rows : List (ℕ × ℝ × ℝ)) : ScatterFig :=
  let pts := rows.map (fun p => (p.2.2, p.2.1))
  let fit := olsFit pts
  ⟨pts.map Prod.fst, pts.map Prod.snd, fit.1, fit.2.1⟩

/-- A list whose entries are all equal (numpy `ptp(column) == 0`, the test
`sm.add_constant` uses to decide that a constant column is already
present). -/
def constantList {K : Type} : List K → Prop
  | [] => True
  | x :: t => ∀ y ∈ t, y = x

open Classical in
/-- The regression stage of the pass, with the failure behaviour of the
library calls on lines 70-71 and 79-80: `sm.add_constant` raises on an
empty series (`np.ptp` of a zero-size array); when the `X` column is
constant (any single row included) `add_constant` with its default
`has_constant='skip'` adds no intercept column, so the later
`model.params["const"]` lookup raises a `KeyError`.  Otherwise the design
is full rank and the fit returns the closed-form OLS solution. -/
noncomputable def regressStep (r : ℝ) (rows : List (ℕ × ℝ × ℝ)) :
    Except String (ℝ × ℝ × ℝ) :=
  if rows = [] then Except.error "zero-size array to reduction operation"
  else if constantList (rows.map (fun p => excessReturn r p.2.2)) then
    Except.error "const"
  else Except.ok (jensenRegression r rows)

/-- One full computation pass of the `try` block (lines 45-71): fetch both
series (the fetch collaborator may itself fail: invalid symbol, no data,
network error — such failures are the `Except.error` inputs), compute
returns, align, regress.  Returns the metrics and the aligned rows used by
the charts. -/
noncomputable def computePass (stockFetch marketFetch : Except String (List (ℕ × ℝ)))
    (r : ℝ) : Except String ((ℝ × ℝ × ℝ) × List (ℕ × ℝ × ℝ)) := do
  let sp ← stockFetch
  let mp ← marketFetch
  let rows := alignReturns (pctChange sp) (pctChange mp)
  let m ← regressStep r rows
  Except.ok (m, rows)

/-- What one pass renders. -/
inductive Page
  /-- The `except` branch (lines 148-150): a generic error banner built
  from the exception text plus the fixed hint to check the stock symbol. -/
  | errorPage (msg hint : String)
  /-- The successful pass: exact metrics, displayed (rounded) metrics,
  the two interpretation labels, the scatter figure and the bar-chart
  rows. -/
  | resultsPage (metrics displayed : ℝ × ℝ × ℝ) (betaLabel alphaLabel : String)
      (scatter : ScatterFig) (bars : List (ℕ × ℝ × ℝ))

/-- The top-level `try/except` (lines 45-150): any failure anywhere in the
pass yields the error page and nothing else; a successful pass renders
metrics, labels and charts from the single computed model. -/
noncomputable def renderApp (stockFetch marketFetch : Except String (List (ℕ × ℝ)))
    (r : ℝ) : Page :=
  match computePass stockFetch marketFetch r with
  | Except.error e =>
      Page.errorPage ("An error occurred: " ++ e)
        "Please check if the stock symbol is valid and try again."
  | Except.ok (m, rows) =>
      Page.resultsPage m (displayedMetrics m.1 m.2.1 m.2.2)
        (betaInterpretation m.1) (alphaInterpretation m.2.1)
        (makeScatterFig rows) rows

/-- Whether a page shows any metrics or charts (an error page shows
neither). -/
def pageShowsResults : Page → Bool
  | Page.errorPage _ _ => false
  | Page.resultsPage _ _ _ _ _ _ => true

/-- Sum of the residuals of the affine model `y = a + b * x`. -/
def residSum {K : Type} [Field K] (data : List (K × K)) (a b : K) : K :=
  (data.map (fun p => p.2 - a - b * p.1)).sum

/-- Sum of the residuals of `y = a + b * x`, each weighted by its `x`. -/
def residXSum {K : Type} [Field K] (data : List (K × K)) (a b : K) : K :=
  (data.map (fun p => p.1 * (p.2 - a - b * p.1))).sum

/-- `Σ (c + d·x)²` over the observation list. -/
def quadSum {K : Type} [Field K] (data : List (K × K)) (c d : K) : K :=
  (data.map (fun p => (c + d * p.1) * (c + d * p.1))).sum

section OlsAlgebra

variable {K : Type} [LinearOrderedField K]

lemma residSum_closed (data : List (K × K)) (a b : K) :
    residSum data a b = sumY data - (data.length : K) * a - b * sumX data := by
  induction data with
  | nil => simp [residSum, sumY, sumX]
  | cons p t ih =>
    simp only [residSum, sumY, sumX, List.map_cons, List.sum_cons, List.length_cons] at ih ⊢
    push_cast
    linear_combination ih

lemma residXSum_closed (data : List (K × K)) (a b : K) :
    residXSum data a b = sumXY data - a * sumX data - b * sumXX data := by
  induction data with
  | nil => simp [residXSum, sumXY, sumX, sumXX]
  | cons p t ih =>
    simp only [residXSum, sumXY, sumX, sumXX, List.map_cons, List.sum_cons,
      List.length_cons] at ih ⊢
    linear_combination ih

lemma sse_decomp (data : List (K × K)) (a' b' a b : K) :
    sse data a b = sse data a' b' + 2 * (a' - a) * residSum data a' b' +
      2 * (b' - b) * residXSum data a' b' + quadSum data (a' - a) (b' - b) := by
  induction data with
  | nil => simp [sse, residSum, residXSum, quadSum]
  | cons p t ih =>
    simp only [sse, residSum, residXSum, quadSum, List.map_cons, List.sum_cons] at ih ⊢
    linear_combination ih

lemma length_cast_ne_zero {data : List (K × K)} (hne : data ≠ []) :
    ((data.length : K)) ≠ 0 := by
  exact_mod_cast fun h => hne (List.length_eq_zero.mp (by exact_mod_cast h))

lemma residSum_ols (data : List (K × K)) (hne : data ≠ []) :
    residSum data (olsAlpha data) (olsBeta data) = 0 := by
  have hn := length_cast_ne_zero (K := K) hne
  rw [residSum_closed, olsAlpha]
  field_simp

lemma residXSum_ols (data : List (K × K)) (hne : data ≠ [])
    (hd : olsDenom data ≠ 0) :
    residXSum data (olsAlpha data) (olsBeta data) = 0 := by
  have hn := length_cast_ne_zero (K := K) hne
  have hd' : (data.length : K) * sumXX data - sumX data * sumX data ≠ 0 := by
    rw [olsDenom] at hd; exact hd
  rw [residXSum_closed, olsAlpha, olsBeta, olsDenom]
  field_simp
  ring

lemma quadSum_nonneg (data : List (K × K)) (c d : K) : 0 ≤ quadSum data c d := by
  refine List.sum_nonneg ?_
  intro x hx
  rcases List.mem_map.mp hx with ⟨p, _, rfl⟩
  exact mul_self_nonneg _

lemma sse_ols_le (data : List (K × K)) (hne : data ≠ []) (hd : olsDenom data ≠ 0)
    (a b : K) :
    sse data (olsAlpha data) (olsBeta data) ≤ sse data a b := by
  rw [sse_decomp data (olsAlpha data) (olsBeta data) a b,
    residSum_ols data hne, residXSum_ols data hne hd]
  have := quadSum_nonneg data (olsAlpha data - a) (olsBeta data - b)
  linarith

lemma quadSum_terms_zero (data : List (K × K)) (c d : K) :
    quadSum data c d = 0 → ∀ p ∈ data, c + d * p.1 = 0 := by
  induction data with
  | nil => simp
  | cons q t ih =>
    intro h p hp
    have hq : 0 ≤ (c + d * q.1) * (c + d * q.1) := mul_self_nonneg _
    have ht : 0 ≤ quadSum t c d := quadSum_nonneg t c d
    have hsum : (c + d * q.1) * (c + d * q.1) + quadSum t c d = 0 := by
      simpa [quadSum] using h
    have h1 : (c + d * q.1) * (c + d * q.1) = 0 := by linarith
    have h2 : quadSum t c d = 0 := by linarith
    rcases List.mem_cons.mp hp with rfl | hp'
    · exact mul_self_eq_zero.mp h1
    · exact ih h2 p hp'

lemma sumX_of_const (data : List (K × K)) (v : K) (h : ∀ p ∈ data, p.1 = v) :
    sumX data = (data.length : K) * v := by
  induction data with
  | nil => simp [sumX]
  | cons q t ih =>
    have hq : q.1 = v := h q (List.mem_cons_self q t)
    have ih' := ih (fun p hp => h p (List.mem_cons_of_mem q hp))
    simp only [sumX, List.map_cons, List.sum_cons, List.length_cons] at ih' ⊢
    push_cast
    rw [hq, ih']
    ring

lemma sumXX_of_const (data : List (K × K)) (v : K) (h : ∀ p ∈ data, p.1 = v) :
    sumXX data = (data.length : K) * (v * v) := by
  induction data with
  | nil => simp [sumXX]
  | cons q t ih =>
    have hq : q.1 = v := h q (List.mem_cons_self q t)
    have ih' := ih (fun p hp => h p (List.mem_cons_of_mem q hp))
    simp only [sumXX, List.map_cons, List.sum_cons, List.length_cons] at ih' ⊢
    push_cast
    rw [hq, ih']
    ring

lemma olsDenom_of_const (data : List (K × K)) (v : K) (h : ∀ p ∈ data, p.1 = v) :
    olsDenom data = 0 := by
  rw [olsDenom, sumX_of_const data v h, sumXX_of_const data v h]
  ring

lemma sse_ols_unique (data : List (K × K)) (hne : data ≠ [])
    (hd : olsDenom data ≠ 0) (a b : K)
    (hle : sse data a b ≤ sse data (olsAlpha data) (olsBeta data)) :
    a = olsAlpha data ∧ b = olsBeta data := by
  have hdec := sse_decomp data (olsAlpha data) (olsBeta data) a b
  rw [residSum_ols data hne, residXSum_ols data hne hd] at hdec
  have hq0 : quadSum data (olsAlpha data - a) (olsBeta data - b) = 0 := by
    have hnn := quadSum_nonneg data (olsAlpha data - a) (olsBeta data - b)
    nlinarith [hle, hdec]
  have hall := quadSum_terms_zero data _ _ hq0
  rcases List.exists_mem_of_ne_nil data hne with ⟨p0, hp0⟩
  by_cases hb : olsBeta data - b = 0
  · have ha : olsAlpha data - a = 0 := by
      have := hall p0 hp0
      rw [hb] at this
      linarith
    constructor
    · linarith
    · linarith
  · exfalso
    apply hd
    refine olsDenom_of_const data ((a - olsAlpha data) / (olsBeta data - b)) ?_
    intro p hp
    have := hall p hp
    field_simp
    linarith

end OlsAlgebra

section ShiftAlgebra

variable {K : Type} [LinearOrderedField K]

lemma length_shiftData (s : K) (data : List (K × K)) :
    (shiftData s data).length = data.length := List.length_map data _

lemma sumX_shiftData (s : K) (data : List (K × K)) :
    sumX (shiftData s data) = sumX data - (data.length : K) * s := by
  induction data with
  | nil => simp [sumX, shiftData]
  | cons p t ih =>
    simp only [sumX, shiftData, List.map_cons, List.sum_cons, List.length_cons] at ih ⊢
    push_cast
    linear_combination ih

lemma sumY_shiftData (s : K) (data : List (K × K)) :
    sumY (shiftData s data) = sumY data - (data.length : K) * s := by
  induction data with
  | nil => simp [sumY, shiftData]
  | cons p t ih =>
    simp only [sumY, shiftData, List.map_cons, List.sum_cons, List.length_cons] at ih ⊢
    push_cast
    linear_combination ih

lemma sumXX_shiftData (s : K) (data : List (K × K)) :
    sumXX (shiftData s data) = sumXX data - 2 * s * sumX data + (data.length : K) * (s * s) := by
  induction data with
  | nil => simp [sumXX, sumX, shiftData]
  | cons p t ih =>
    simp only [sumXX, sumX, shiftData, List.map_cons, List.sum_cons, List.length_cons] at ih ⊢
    push_cast
    linear_combination ih

lemma sumXY_shiftData (s : K) (data : List (K × K)) :
    sumXY (shiftData s data) =
      sumXY data - s * sumX data - s * sumY data + (data.length : K) * (s * s) := by
  induction data with
  | nil => simp [sumXY, sumX, sumY, shiftData]
  | cons p t ih =>
    simp only [sumXY, sumX, sumY, shiftData, List.map_cons, List.sum_cons,
      List.length_cons] at ih ⊢
    push_cast
    linear_combination ih

lemma olsDenom_shiftData (s : K) (data : List (K × K)) :
    olsDenom (shiftData s data) = olsDenom data := by
  rw [olsDenom, olsDenom, length_shiftData, sumXX_shiftData, sumX_shiftData]
  ring

lemma olsBeta_shiftData (s : K) (data : List (K × K)) :
    olsBeta (shiftData s data) = olsBeta data := by
  rw [olsBeta, olsBeta, olsDenom_shiftData, length_shiftData, sumXY_shiftData,
    sumX_shiftData, sumY_shiftData]
  congr 1
  ring

lemma olsAlpha_shiftData (s : K) (data : List (K × K)) (hne : data ≠ []) :
    olsAlpha (shiftData s data) = olsAlpha data - s * (1 - olsBeta data) := by
  have hn := length_cast_ne_zero (K := K) hne
  rw [olsAlpha, olsAlpha, olsBeta_shiftData, length_shiftData, sumY_shiftData,
    sumX_shiftData]
  field_simp
  ring

end ShiftAlgebra

lemma returnPoints_map_some {A K : Type} (l : List A) (dt : A → ℕ) (vl : A → K) :
    returnPoints (l.map (fun a => (dt a, some (vl a)))) = l.map (fun a => (dt a, vl a)) := by
  induction l with
  | nil => rfl
  | cons a t ih =>
    simp only [returnPoints, List.map_cons, List.filterMap_cons, Option.map_some'] at ih ⊢
    rw [ih]

section ReturnTransform

variable {K : Type} [Field K]

lemma returnPoints_pctChange (s : List (ℕ × K)) :
    returnPoints (pctChange s) =
      (s.zip s.tail).map (fun q => (q.2.1, (q.2.2 / q.1.2 - 1) * 100)) := by
  cases s with
  | nil => rfl
  | cons p t =>
    show returnPoints ((p.1, none) :: _) = _
    simp only [returnPoints, List.filterMap_cons, Option.map_none]
    exact returnPoints_map_some _ _ _

lemma returnPoints_pctChange_length (s : List (ℕ × K)) :
    (returnPoints (pctChange s)).length = s.length - 1 := by
  rw [returnPoints_pctChange, List.length_map, List.length_zip, List.length_tail]
  omega

lemma pctChange_dates (s : List (ℕ × K)) :
    (pctChange s).map Prod.fst = s.map Prod.fst := by
  cases s with
  | nil => rfl
  | cons p t =>
    show (p.1, (none : Option K)).1 :: _ = _
    simp only [List.map_cons, List.map_map]
    congr 1
    show ((p :: t).zip t).map (Prod.fst ∘ Prod.snd) = t.map Prod.fst
    rw [← List.map_map, List.map_snd_zip _ _ (by simp)]

end ReturnTransform

section Alignment

variable {K : Type}

lemma definedDates_cons_none (d : ℕ) (t : List (ℕ × Option K)) :
    definedDates ((d, (none : Option K)) :: t) = definedDates t := by
  simp [definedDates, returnPoints, List.filterMap_cons]

lemma definedDates_cons_some (d : ℕ) (x : K) (t : List (ℕ × Option K)) :
    definedDates ((d, some x) :: t) = d :: definedDates t := by
  simp [definedDates, returnPoints, List.filterMap_cons]

lemma mem_definedDates {d : ℕ} {s : List (ℕ × Option K)} :
    d ∈ definedDates s ↔ ∃ x, (d, some x) ∈ s := by
  induction s with
  | nil => simp [definedDates, returnPoints]
  | cons p t ih =>
    obtain ⟨d2, v⟩ := p
    cases v with
    | none =>
      rw [definedDates_cons_none, ih]
      constructor
      · rintro ⟨x, hx⟩
        exact ⟨x, List.mem_cons_of_mem _ hx⟩
      · rintro ⟨x, hx⟩
        rcases List.mem_cons.mp hx with h | h
        · exact absurd (congrArg Prod.snd h) (by simp)
        · exact ⟨x, h⟩
    | some x0 =>
      rw [definedDates_cons_some, List.mem_cons, ih]
      constructor
      · rintro (rfl | ⟨x, hx⟩)
        · exact ⟨x0, List.mem_cons_self _ _⟩
        · exact ⟨x, List.mem_cons_of_mem _ hx⟩
      · rintro ⟨x, hx⟩
        rcases List.mem_cons.mp hx with h | h
        · exact Or.inl (congrArg Prod.fst h)
        · exact Or.inr ⟨x, h⟩

lemma definedDates_subset_dates {s : List (ℕ × Option K)} {d : ℕ}
    (h : d ∈ definedDates s) : d ∈ s.map Prod.fst := by
  rcases mem_definedDates.mp h with ⟨x, hx⟩
  exact List.mem_map.mpr ⟨(d, some x), hx, rfl⟩

lemma lookupRet_some_mem {d : ℕ} {b : List (ℕ × Option K)} {y : K}
    (h : lookupRet d b = some y) : (d, some y) ∈ b := by
  induction b with
  | nil => simp [lookupRet] at h
  | cons q t ih =>
    obtain ⟨d2, v⟩ := q
    by_cases hd : d = d2
    · subst hd
      simp only [lookupRet, if_pos rfl] at h
      rw [← h]
      exact List.mem_cons_self _ _
    · simp only [lookupRet, if_neg hd] at h
      exact List.mem_cons_of_mem _ (ih h)

lemma lookupRet_eq_some_of_mem {d : ℕ} {x : K} {b : List (ℕ × Option K)}
    (hb : (b.map Prod.fst).Nodup) (h : (d, some x) ∈ b) :
    lookupRet d b = some x := by
  induction b with
  | nil => simp at h
  | cons q t ih =>
    obtain ⟨d2, v⟩ := q
    simp only [List.map_cons, List.nodup_cons] at hb
    rcases List.mem_cons.mp h with heq | hmem
    · injection heq with e1 e2
      simp [lookupRet, e1.symm, e2.symm]
    · by_cases hd : d = d2
      · exfalso
        apply hb.1
        subst hd
        exact List.mem_map.mpr ⟨(d, some x), hmem, rfl⟩
      · simp only [lookupRet, if_neg hd]
        exact ih hb.2 hmem

lemma lookupRet_some_iff {d : ℕ} {b : List (ℕ × Option K)}
    (hb : (b.map Prod.fst).Nodup) :
    (∃ y, lookupRet d b = some y) ↔ d ∈ definedDates b := by
  constructor
  · rintro ⟨y, hy⟩
    exact mem_definedDates.mpr ⟨y, lookupRet_some_mem hy⟩
  · intro h
    rcases mem_definedDates.mp h with ⟨x, hx⟩
    exact ⟨x, lookupRet_eq_some_of_mem hb hx⟩

lemma alignReturns_cons_none (d : ℕ) (t b : List (ℕ × Option K)) :
    alignReturns ((d, (none : Option K)) :: t) b = alignReturns t b := by
  simp [alignReturns, List.filterMap_cons]

lemma alignReturns_cons_some (d : ℕ) (x : K) (t b : List (ℕ × Option K)) :
    alignReturns ((d, some x) :: t) b =
      match lookupRet d b with
      | some y => (d, x, y) :: alignReturns t b
      | none => alignReturns t b := by
  rcases hl : lookupRet d b with _ | y <;>
    simp [alignReturns, List.filterMap_cons, hl]

lemma alignReturns_map_fst (a b : List (ℕ × Option K))
    (hb : (b.map Prod.fst).Nodup) :
    (alignReturns a b).map Prod.fst =
      (definedDates a).filter (fun d => decide (d ∈ definedDates b)) := by
  induction a with
  | nil => rfl
  | cons p t ih =>
    obtain ⟨d, v⟩ := p
    cases v with
    | none => rw [alignReturns_cons_none, definedDates_cons_none, ih]
    | some x =>
      rw [alignReturns_cons_some, definedDates_cons_some]
      rcases hl : lookupRet d b with _ | y
      · have hnot : d ∉ definedDates b := by
          intro hmem
          rcases (lookupRet_some_iff hb).mpr hmem with ⟨y, hy⟩
          rw [hl] at hy
          exact Option.noConfusion hy
        simp only [List.filter_cons, decide_eq_true_eq]
        rw [if_neg (by simpa using hnot)]
        exact ih
      · have hmem : d ∈ definedDates b :=
          (lookupRet_some_iff hb).mp ⟨y, hl⟩
        simp only [List.map_cons, List.filter_cons]
        rw [if_pos (by simpa using hmem)]
        rw [ih]

lemma definedDates_sublist (s : List (ℕ × Option K)) :
    List.Sublist (definedDates s) (s.map Prod.fst) := by
  induction s with
  | nil => simp [definedDates, returnPoints]
  | cons p t ih =>
    obtain ⟨d, v⟩ := p
    cases v with
    | none =>
      rw [definedDates_cons_none]
      exact ih.cons _
    | some x =>
      rw [definedDates_cons_some]
      exact ih.cons₂ _

lemma definedDates_nodup {s : List (ℕ × Option K)}
    (hs : (s.map Prod.fst).Nodup) : (definedDates s).Nodup :=
  hs.sublist (definedDates_sublist s)

lemma definedDates_length (s : List (ℕ × Option K)) :
    (definedDates s).length = (returnPoints s).length :=
  List.length_map _ _

lemma mem_align_dates {d : ℕ} {a b : List (ℕ × Option K)}
    (h : d ∈ (alignReturns a b).map Prod.fst) :
    d ∈ a.map Prod.fst ∧ d ∈ b.map Prod.fst := by
  rcases List.mem_map.mp h with ⟨row, hrow, rfl⟩
  rcases List.mem_filterMap.mp hrow with ⟨p, hp, hfp⟩
  rcases hv : p.2 with _ | x <;> rcases hl : lookupRet p.1 b with _ | y <;>
    rw [hv, hl] at hfp <;> simp only [] at hfp
  · exact Option.noConfusion hfp
  · exact Option.noConfusion hfp
  · exact Option.noConfusion hfp
  · injection hfp with hrow'
    constructor
    · rw [← hrow']
      exact List.mem_map.mpr ⟨p, hp, rfl⟩
    · rw [← hrow']
      exact List.mem_map.mpr ⟨(p.1, some y), lookupRet_some_mem hl, rfl⟩

lemma lookupRet_of_all_none {b : List (ℕ × Option K)}
    (h : ∀ q ∈ b, q.2 = none) (d : ℕ) : lookupRet d b = none := by
  induction b with
  | nil => rfl
  | cons q t ih =>
    obtain ⟨d2, v⟩ := q
    have hv : v = none := h (d2, v) (List.mem_cons_self _ _)
    by_cases hd : d = d2
    · simp [lookupRet, hd, hv]
    · simp only [lookupRet, if_neg hd]
      exact ih (fun q hq => h q (List.mem_cons_of_mem _ hq))

lemma alignReturns_nil_left {a b : List (ℕ × Option K)}
    (h : ∀ p ∈ a, p.2 = none) : alignReturns a b = [] := by
  refine List.filterMap_eq_nil_iff.mpr ?_
  intro p hp
  rw [h p hp]

lemma alignReturns_nil_right {a b : List (ℕ × Option K)}
    (h : ∀ q ∈ b, q.2 = none) : alignReturns a b = [] := by
  refine List.filterMap_eq_nil_iff.mpr ?_
  intro p hp
  rw [lookupRet_of_all_none h p.1]
  rcases p.2 with _ | x <;> rfl

end Alignment

lemma pctChange_all_none {K : Type} [Field K] {s : List (ℕ × K)}
    (h : s.length < 2) : ∀ p ∈ pctChange s, p.2 = (none : Option K) := by
  match s, h with
  | [], _ => intro p hp; simp [pctChange] at hp
  | [q], _ =>
    intro p hp
    simp only [pctChange, List.zip_nil_right] at hp
    rcases List.mem_cons.mp hp with rfl | hp'
    · rfl
    · simp at hp'

lemma riskFreeRateMonthly_zero : riskFreeRateMonthly 0 = 0 := by
  rw [riskFreeRateMonthly]
  norm_num

lemma excessReturn_zero (x : ℝ) : excessReturn 0 x = x := by
  rw [excessReturn, riskFreeRateMonthly_zero]
  ring

lemma excessData_zero (rows : List (ℕ × ℝ × ℝ)) :
    excessData 0 rows = rows.map (fun p => (p.2.2, p.2.1)) := by
  simp [excessData, excessReturn_zero]

/-- C2: for every annual risk-free rate `r` in `[0, 20]`, the periodic
rate subtracted in the excess-return computation is exactly
`(1 + r/100) ^ (1/12) - 1` — it agrees with the spec's formula
`specPeriodicRate` with the fixed monthly-compounding exponent `1/12`
(the definition takes no sampling-frequency input at all) — and the
excess returns subtract that periodic rate multiplied by 100. -/
theorem periodicRateFormula (r : ℝ) (h0 : 0 ≤ r) (h20 : r ≤ 20) :
    riskFreeRateMonthly r = specPeriodicRate r ∧
    riskFreeRateMonthly r = (1 + r / 100) ^ ((1 : ℝ) / 12) - 1 ∧
    ∀ x : ℝ, excessReturn r x = x - ((1 + r / 100) ^ ((1 : ℝ) / 12) - 1) * 100 :=
  ⟨rfl, rfl, fun _ => rfl⟩

/-- Witness for C2 at the source's default rate `r = 6`. -/
theorem periodicRateFormula_witness :
    (0 : ℝ) ≤ 6 ∧ (6 : ℝ) ≤ 20 ∧
    (riskFreeRateMonthly 6 = specPeriodicRate 6 ∧
      riskFreeRateMonthly 6 = (1 + 6 / 100) ^ ((1 : ℝ) / 12) - 1 ∧
      ∀ x : ℝ, excessReturn 6 x = x - ((1 + 6 / 100) ^ ((1 : ℝ) / 12) - 1) * 100) :=
  ⟨by norm_num, by norm_num, periodicRateFormula 6 (by norm_num) (by norm_num)⟩

/-- C7: the interpretation rules are a total function on real Beta and
Alpha with the three-way structure of lines 92-102: Beta above 1 is
aggressive, below 1 defensive, exactly 1 neutral; Alpha above 0 is
outperforming, below 0 underperforming, exactly 0 neutral. -/
theorem interpretationTrichotomy (beta alpha : ℝ) :
    (beta > 1 → betaInterpretation beta = "🔥 **Aggressive**") ∧
    (beta < 1 → betaInterpretation beta = "❄️ **Defensive**") ∧
    (beta = 1 → betaInterpretation beta = "➡️ **Neutral**") ∧
    (alpha > 0 → alphaInterpretation alpha = "📈 **Outperforming**") ∧
    (alpha < 0 → alphaInterpretation alpha = "📉 **Underperforming**") ∧
    (alpha = 0 → alphaInterpretation alpha = "➡️ **Neutral**") := by
  refine ⟨?_, ?_, ?_, ?_, ?_, ?_⟩ <;> intro h
  · rw [betaInterpretation, if_pos h]
  · rw [betaInterpretation, if_neg (by linarith), if_pos h]
  · rw [betaInterpretation, if_neg (by simp [h]), if_neg (by simp [h])]
  · rw [alphaInterpretation, if_pos h]
  · rw [alphaInterpretation, if_neg (by linarith), if_pos h]
  · rw [alphaInterpretation, if_neg (by simp [h]), if_neg (by simp [h])]

/-- Witness for C7 at the spec's four example inputs: Beta 1.2 is
aggressive, Beta 0.8 defensive, Alpha 0.05 outperforming, Alpha −0.02
underperforming. -/
theorem interpretationTrichotomy_witness :
    ((1.2 : ℝ) > 1 ∧ betaInterpretation 1.2 = "🔥 **Aggressive**") ∧
    ((0.8 : ℝ) < 1 ∧ betaInterpretation 0.8 = "❄️ **Defensive**") ∧
    ((0.05 : ℝ) > 0 ∧ alphaInterpretation 0.05 = "📈 **Outperforming**") ∧
    ((-0.02 : ℝ) < 0 ∧ alphaInterpretation (-0.02) = "📉 **Underperforming**") :=
  ⟨⟨by norm_num, (interpretationTrichotomy 1.2 0.05).1 (by norm_num)⟩,
   ⟨by norm_num, (interpretationTrichotomy 0.8 0.05).2.1 (by norm_num)⟩,
   ⟨by norm_num, (interpretationTrichotomy 1.2 0.05).2.2.2.1 (by norm_num)⟩,
   ⟨by norm_num, (interpretationTrichotomy 1.2 (-0.02)).2.2.2.2.1 (by norm_num)⟩⟩

/-- C10: the displayed Beta is rounded to 4 decimal places while the
interpretation label is computed from the unrounded regression output: at
fitted Beta 1.00001 the display shows exactly 1 but the label is the
aggressive one, and the label of the displayed value itself would have
been neutral. -/
theorem labelFromUnroundedBeta :
    (displayedMetrics 1.00001 0.05 0.9).1 = 1 ∧
    betaInterpretation (1.00001 : ℝ) = "🔥 **Aggressive**" ∧
    betaInterpretation ((displayedMetrics 1.00001 0.05 0.9).1) = "➡️ **Neutral**" := by
  have hfloor : Int.floor ((1.00001 : ℝ) * 10000) = 10000 := by
    rw [Int.floor_eq_iff]
    norm_num
  have hdisp : (displayedMetrics 1.00001 0.05 0.9).1 = 1 := by
    show pyRound4 1.00001 = 1
    rw [pyRound4]
    simp only [hfloor]
    rw [if_pos (by norm_num)]
    norm_num
  refine ⟨hdisp, ?_, ?_⟩
  · rw [betaInterpretation, if_pos (by norm_num)]
  · rw [hdisp, betaInterpretation, if_neg (by norm_num), if_neg (by norm_num)]

/-- C1: on any aligned sequence of at least 2 rows on which the fit is
defined, the regressor subtracts `periodic_rate * 100` from both columns,
and the returned Beta and Alpha are exactly the slope and intercept of
the unweighted least-squares line with intercept through the excess
observations (they minimise the sum of squared errors, uniquely so), and
the returned R-squared is the coefficient of determination
`1 - SSR / TSS` of that same fit. -/
theorem excessRegressorFitsOls (r : ℝ) (rows : List (ℕ × ℝ × ℝ))
    (h2 : 2 ≤ rows.length)
    (hx : olsDenom (excessData r rows) ≠ 0)
    (hy : tssCentered (excessData r rows) ≠ 0) :
    excessData r rows =
      rows.map (fun p => (p.2.2 - riskFreeRateMonthly r * 100,
        p.2.1 - riskFreeRateMonthly r * 100)) ∧
    (∀ a b : ℝ,
      sse (excessData r rows) (jensenRegression r rows).2.1 (jensenRegression r rows).1 ≤
        sse (excessData r rows) a b) ∧
    (∀ a b : ℝ,
      sse (excessData r rows) a b ≤
        sse (excessData r rows) (jensenRegression r rows).2.1 (jensenRegression r rows).1 →
      a = (jensenRegression r rows).2.1 ∧ b = (jensenRegression r rows).1) ∧
    (jensenRegression r rows).2.2 =
      1 - sse (excessData r rows) (jensenRegression r rows).2.1 (jensenRegression r rows).1 /
        tssCentered (excessData r rows) ∧
    tssCentered (excessData r rows) * (1 - (jensenRegression r rows).2.2) =
      sse (excessData r rows) (jensenRegression r rows).2.1 (jensenRegression r rows).1 := by
  have hne : excessData r rows ≠ [] := by
    intro h
    have hlen := congrArg List.length h
    simp only [excessData, List.length_map, List.length_nil] at hlen
    omega
  have hb : (jensenRegression r rows).1 = olsBeta (excessData r rows) := rfl
  have ha : (jensenRegression r rows).2.1 = olsAlpha (excessData r rows) := rfl
  have hr : (jensenRegression r rows).2.2 =
      1 - sse (excessData r rows) (olsAlpha (excessData r rows))
        (olsBeta (excessData r rows)) / tssCentered (excessData r rows) := rfl
  refine ⟨?_, ?_, ?_, ?_, ?_⟩
  · simp [excessData, excessReturn]
  · intro a b
    rw [ha, hb]
    exact sse_ols_le _ hne hx a b
  · intro a b hle
    rw [ha, hb] at hle ⊢
    exact sse_ols_unique _ hne hx a b hle
  · rw [ha, hb, hr]
  · rw [ha, hb, hr]
    field_simp

/-- Witness for C1: a concrete 3-row aligned sequence at rate 0. -/
theorem excessRegressorFitsOls_witness :
    (2 ≤ ([(0, 2, 3), (1, 5, 7), (2, 4, 6)] : List (ℕ × ℝ × ℝ)).length) ∧
    olsDenom (excessData 0 [(0, 2, 3), (1, 5, 7), (2, 4, 6)]) ≠ 0 ∧
    tssCentered (excessData 0 [(0, 2, 3), (1, 5, 7), (2, 4, 6)]) ≠ 0 ∧
    (excessData 0 [(0, 2, 3), (1, 5, 7), (2, 4, 6)] =
      ([(0, 2, 3), (1, 5, 7), (2, 4, 6)] : List (ℕ × ℝ × ℝ)).map
        (fun p => (p.2.2 - riskFreeRateMonthly 0 * 100,
          p.2.1 - riskFreeRateMonthly 0 * 100)) ∧
    (∀ a b : ℝ,
      sse (excessData 0 [(0, 2, 3), (1, 5, 7), (2, 4, 6)])
          (jensenRegression 0 [(0, 2, 3), (1, 5, 7), (2, 4, 6)]).2.1
          (jensenRegression 0 [(0, 2, 3), (1, 5, 7), (2, 4, 6)]).1 ≤
        sse (excessData 0 [(0, 2, 3), (1, 5, 7), (2, 4, 6)]) a b) ∧
    (∀ a b : ℝ,
      sse (excessData 0 [(0, 2, 3), (1, 5, 7), (2, 4, 6)]) a b ≤
        sse (excessData 0 [(0, 2, 3), (1, 5, 7), (2, 4, 6)])
          (jensenRegression 0 [(0, 2, 3), (1, 5, 7), (2, 4, 6)]).2.1
          (jensenRegression 0 [(0, 2, 3), (1, 5, 7), (2, 4, 6)]).1 →
      a = (jensenRegression 0 [(0, 2, 3), (1, 5, 7), (2, 4, 6)]).2.1 ∧
        b = (jensenRegression 0 [(0, 2, 3), (1, 5, 7), (2, 4, 6)]).1) ∧
    (jensenRegression 0 [(0, 2, 3), (1, 5, 7), (2, 4, 6)]).2.2 =
      1 - sse (excessData 0 [(0, 2, 3), (1, 5, 7), (2, 4, 6)])
          (jensenRegression 0 [(0, 2, 3), (1, 5, 7), (2, 4, 6)]).2.1
          (jensenRegression 0 [(0, 2, 3), (1, 5, 7), (2, 4, 6)]).1 /
        tssCentered (excessData 0 [(0, 2, 3), (1, 5, 7), (2, 4, 6)]) ∧
    tssCentered (excessData 0 [(0, 2, 3), (1, 5, 7), (2, 4, 6)]) *
        (1 - (jensenRegression 0 [(0, 2, 3), (1, 5, 7), (2, 4, 6)]).2.2) =
      sse (excessData 0 [(0, 2, 3), (1, 5, 7), (2, 4, 6)])
        (jensenRegression 0 [(0, 2, 3), (1, 5, 7), (2, 4, 6)]).2.1
        (jensenRegression 0 [(0, 2, 3), (1, 5, 7), (2, 4, 6)]).1) := by
  have hx : olsDenom (excessData 0 [(0, 2, 3), (1, 5, 7), (2, 4, 6)]) ≠ 0 := by
    rw [excessData_zero]
    simp only [List.map_cons, List.map_nil, olsDenom, sumXX, sumX, List.sum_cons,
      List.sum_nil, List.length_cons, List.length_nil]
    norm_num
  have hy : tssCentered (excessData 0 [(0, 2, 3), (1, 5, 7), (2, 4, 6)]) ≠ 0 := by
    rw [excessData_zero]
    simp only [List.map_cons, List.map_nil, tssCentered, List.sum_cons, List.sum_nil,
      List.length_cons, List.length_nil]
    norm_num
  exact ⟨by simp, hx, hy,
    excessRegressorFitsOls 0 [(0, 2, 3), (1, 5, 7), (2, 4, 6)] (by simp) hx hy⟩

/-- C3: an equal additive shift of both excess-return columns — which is
exactly what a change of the risk-free rate does to the regression data —
leaves the fitted slope unchanged and moves the fitted intercept by
`-shift·100·(1 - beta)`, where `shift` is the change of the periodic
rate. -/
theorem betaShiftInvariance (data : List (ℝ × ℝ)) (s : ℝ)
    (hd : olsDenom data ≠ 0) :
    (olsFit (shiftData (s * 100) data)).1 = (olsFit data).1 ∧
    (olsFit (shiftData (s * 100) data)).2.1 =
      (olsFit data).2.1 - s * 100 * (1 - (olsFit data).1) ∧
    ∀ (r₁ r₂ : ℝ) (rows : List (ℕ × ℝ × ℝ)),
      excessData r₂ rows =
        shiftData ((riskFreeRateMonthly r₂ - riskFreeRateMonthly r₁) * 100)
          (excessData r₁ rows) := by
  have hne : data ≠ [] := by
    rintro rfl
    apply hd
    simp [olsDenom, sumXX, sumX]
  refine ⟨olsBeta_shiftData _ _, ?_, ?_⟩
  · show olsAlpha _ = olsAlpha data - s * 100 * (1 - olsBeta data)
    rw [olsAlpha_shiftData _ _ hne]
  · intro r₁ r₂ rows
    simp only [excessData, shiftData, List.map_map]
    congr 1
    funext p
    simp only [Function.comp, excessReturn, Prod.mk.injEq]
    constructor <;> ring

/-- Witness for C3 on a concrete 3-observation data set with periodic
shift 1. -/
theorem betaShiftInvariance_witness :
    olsDenom ([(3, 2), (7, 5), (6, 4)] : List (ℝ × ℝ)) ≠ 0 ∧
    ((olsFit (shiftData ((1 : ℝ) * 100) [(3, 2), (7, 5), (6, 4)])).1 =
        (olsFit ([(3, 2), (7, 5), (6, 4)] : List (ℝ × ℝ))).1 ∧
      (olsFit (shiftData ((1 : ℝ) * 100) [(3, 2), (7, 5), (6, 4)])).2.1 =
        (olsFit ([(3, 2), (7, 5), (6, 4)] : List (ℝ × ℝ))).2.1 -
          1 * 100 * (1 - (olsFit ([(3, 2), (7, 5), (6, 4)] : List (ℝ × ℝ))).1) ∧
      ∀ (r₁ r₂ : ℝ) (rows : List (ℕ × ℝ × ℝ)),
        excessData r₂ rows =
          shiftData ((riskFreeRateMonthly r₂ - riskFreeRateMonthly r₁) * 100)
            (excessData r₁ rows)) := by
  have hd : olsDenom ([(3, 2), (7, 5), (6, 4)] : List (ℝ × ℝ)) ≠ 0 := by
    simp only [olsDenom, sumXX, sumX, List.map_cons, List.map_nil, List.sum_cons,
      List.sum_nil, List.length_cons, List.length_nil]
    norm_num
  exact ⟨hd, betaShiftInvariance [(3, 2), (7, 5), (6, 4)] 1 hd⟩

/-- C4: a price series with at least 2 points yields exactly `N - 1`
Return Points, the first date carries no return, and the i-th Return
Point is the date of row `i+1` with value
`(price[i+1] - price[i]) / price[i] * 100`. -/
theorem returnTransformerContract (s : List (ℕ × ℝ)) (h2 : 2 ≤ s.length)
    (hpos : ∀ p ∈ s, 0 < p.2) :
    (returnPoints (pctChange s)).length = s.length - 1 ∧
    (pctChange s).head? = s.head?.map (fun q => (q.1, none)) ∧
    ∀ i (hi : i + 1 < s.length),
      (returnPoints (pctChange s))[i]? =
        some ((s.get ⟨i + 1, hi⟩).1,
          ((s.get ⟨i + 1, hi⟩).2 - (s.get ⟨i, Nat.lt_of_succ_lt hi⟩).2) /
            (s.get ⟨i, Nat.lt_of_succ_lt hi⟩).2 * 100) := by
  refine ⟨returnPoints_pctChange_length s, ?_, ?_⟩
  · match s, h2 with
    | p :: t, _ => rfl
  · intro i hi
    rw [returnPoints_pctChange]
    have hz : i < (s.zip s.tail).length := by
      rw [List.length_zip, List.length_tail]
      omega
    rw [List.getElem?_map, List.getElem?_eq_getElem hz, List.getElem_zip]
    have hmem : s.get ⟨i, Nat.lt_of_succ_lt hi⟩ ∈ s := s.get_mem _ _
    have h0 : (0 : ℝ) < (s.get ⟨i, Nat.lt_of_succ_lt hi⟩).2 := hpos _ hmem
    simp only [Option.map_some', List.getElem_tail, List.get_eq_getElem]
    congr 2
    have hne : s[i].2 ≠ 0 := by
      simp only [List.get_eq_getElem] at h0
      exact ne_of_gt h0
    field_simp

/-- Witness for C4 on a concrete 3-point price series. -/
theorem returnTransformerContract_witness :
    (2 ≤ ([(0, 100), (1, 102), (2, 101)] : List (ℕ × ℝ)).length) ∧
    (∀ p ∈ ([(0, 100), (1, 102), (2, 101)] : List (ℕ × ℝ)), 0 < p.2) ∧
    ((returnPoints (pctChange ([(0, 100), (1, 102), (2, 101)] : List (ℕ × ℝ)))).length =
        ([(0, 100), (1, 102), (2, 101)] : List (ℕ × ℝ)).length - 1 ∧
      (pctChange ([(0, 100), (1, 102), (2, 101)] : List (ℕ × ℝ))).head? =
        ([(0, 100), (1, 102), (2, 101)] : List (ℕ × ℝ)).head?.map (fun q => (q.1, none)) ∧
      ∀ i (hi : i + 1 < ([(0, 100), (1, 102), (2, 101)] : List (ℕ × ℝ)).length),
        (returnPoints (pctChange ([(0, 100), (1, 102), (2, 101)] : List (ℕ × ℝ))))[i]? =
          some ((([(0, 100), (1, 102), (2, 101)] : List (ℕ × ℝ)).get ⟨i + 1, hi⟩).1,
            ((([(0, 100), (1, 102), (2, 101)] : List (ℕ × ℝ)).get ⟨i + 1, hi⟩).2 -
              (([(0, 100), (1, 102), (2, 101)] : List (ℕ × ℝ)).get
                ⟨i, Nat.lt_of_succ_lt hi⟩).2) /
              (([(0, 100), (1, 102), (2, 101)] : List (ℕ × ℝ)).get
                ⟨i, Nat.lt_of_succ_lt hi⟩).2 * 100)) := by
  have hpos : ∀ p ∈ ([(0, 100), (1, 102), (2, 101)] : List (ℕ × ℝ)), 0 < p.2 := by
    intro p hp
    simp only [List.mem_cons, List.not_mem_nil, or_false] at hp
    rcases hp with rfl | rfl | rfl <;> norm_num
  exact ⟨by simp, hpos,
    returnTransformerContract [(0, 100), (1, 102), (2, 101)] (by simp) hpos⟩

/-- C5: with unique dates in each return series, the aligned rows are
exactly the dates where both returns are defined and non-missing: their
date list is the ordered intersection of the defined-date lists, their
count equals that intersection's size, and is at most the smaller of the
two Return Point counts. -/
theorem alignedPairsInnerJoin (a b : List (ℕ × Option ℝ))
    (ha : (a.map Prod.fst).Nodup) (hb : (b.map Prod.fst).Nodup) :
    (∀ d, d ∈ (alignReturns a b).map Prod.fst ↔
        d ∈ definedDates a ∧ d ∈ definedDates b) ∧
    (alignReturns a b).length =
      ((definedDates a).filter (fun d => decide (d ∈ definedDates b))).length ∧
    (alignReturns a b).length ≤
      min (returnPoints a).length (returnPoints b).length := by
  have hmap := alignReturns_map_fst a b hb
  have hlen : (alignReturns a b).length =
      ((definedDates a).filter (fun d => decide (d ∈ definedDates b))).length := by
    rw [← List.length_map (alignReturns a b) Prod.fst, hmap]
  refine ⟨?_, hlen, ?_⟩
  · intro d
    rw [hmap, List.mem_filter]
    simp
  · rw [hlen]
    refine le_min ?_ ?_
    · calc ((definedDates a).filter (fun d => decide (d ∈ definedDates b))).length ≤
          (definedDates a).length := List.length_filter_le _ _
        _ = (returnPoints a).length := definedDates_length a
    · have hnd : ((definedDates a).filter (fun d => decide (d ∈ definedDates b))).Nodup :=
        (definedDates_nodup ha).filter _
      have hsub : ((definedDates a).filter (fun d => decide (d ∈ definedDates b))) ⊆
          definedDates b := by
        intro d hd
        exact of_decide_eq_true (List.mem_filter.mp hd).2
      calc ((definedDates a).filter (fun d => decide (d ∈ definedDates b))).length ≤
          (definedDates b).length := (List.subperm_of_subset hnd hsub).length_le
        _ = (returnPoints b).length := definedDates_length b

/-- Witness for C5 on two concrete return series with one common
defined date. -/
theorem alignedPairsInnerJoin_witness :
    (([(0, none), (1, some 2), (2, some 3)] : List (ℕ × Option ℝ)).map Prod.fst).Nodup ∧
    (([(1, some 1), (3, some 4)] : List (ℕ × Option ℝ)).map Prod.fst).Nodup ∧
    ((∀ d, d ∈ (alignReturns ([(0, none), (1, some 2), (2, some 3)] : List (ℕ × Option ℝ))
          [(1, some 1), (3, some 4)]).map Prod.fst ↔
        d ∈ definedDates ([(0, none), (1, some 2), (2, some 3)] : List (ℕ × Option ℝ)) ∧
        d ∈ definedDates ([(1, some 1), (3, some 4)] : List (ℕ × Option ℝ))) ∧
      (alignReturns ([(0, none), (1, some 2), (2, some 3)] : List (ℕ × Option ℝ))
          [(1, some 1), (3, some 4)]).length =
        ((definedDates ([(0, none), (1, some 2), (2, some 3)] : List (ℕ × Option ℝ))).filter
          (fun d => decide (d ∈
            definedDates ([(1, some 1), (3, some 4)] : List (ℕ × Option ℝ))))).length ∧
      (alignReturns ([(0, none), (1, some 2), (2, some 3)] : List (ℕ × Option ℝ))
          [(1, some 1), (3, some 4)]).length ≤
        min (returnPoints ([(0, none), (1, some 2), (2, some 3)] : List (ℕ × Option ℝ))).length
          (returnPoints ([(1, some 1), (3, some 4)] : List (ℕ × Option ℝ))).length) := by
  have ha : (([(0, none), (1, some 2), (2, some 3)] : List (ℕ × Option ℝ)).map
      Prod.fst).Nodup := by
    simp
  have hb : (([(1, some 1), (3, some 4)] : List (ℕ × Option ℝ)).map Prod.fst).Nodup := by
    simp
  exact ⟨ha, hb, alignedPairsInnerJoin _ _ ha hb⟩

/-- C6: when the two price series share no dates, or either has fewer
than 2 points, the pass fails inside the `try` block and the page is the
error banner with the symbol hint — never a rendered zero-row result. -/
theorem emptyOverlapSurfacesError (sp mp : List (ℕ × ℝ)) (r : ℝ)
    (h : (∀ d, d ∈ sp.map Prod.fst → d ∉ mp.map Prod.fst) ∨
      sp.length < 2 ∨ mp.length < 2) :
    ∃ e, computePass (Except.ok sp) (Except.ok mp) r = Except.error e ∧
      renderApp (Except.ok sp) (Except.ok mp) r =
        Page.errorPage ("An error occurred: " ++ e)
          "Please check if the stock symbol is valid and try again." ∧
      pageShowsResults (renderApp (Except.ok sp) (Except.ok mp) r) = false := by
  have hnil : alignReturns (pctChange sp) (pctChange mp) = [] := by
    rcases h with hdisj | hs | hm
    · refine List.eq_nil_iff_forall_not_mem.mpr ?_
      intro row hrow
      have hd := mem_align_dates (List.mem_map.mpr ⟨row, hrow, rfl⟩)
      rw [pctChange_dates, pctChange_dates] at hd
      exact hdisj row.1 hd.1 hd.2
    · exact alignReturns_nil_left (pctChange_all_none hs)
    · exact alignReturns_nil_right (pctChange_all_none hm)
  have hstep : computePass (Except.ok sp) (Except.ok mp) r =
      Except.bind (regressStep r (alignReturns (pctChange sp) (pctChange mp)))
        (fun m => Except.ok (m, alignReturns (pctChange sp) (pctChange mp))) := rfl
  have hcp : computePass (Except.ok sp) (Except.ok mp) r =
      Except.error "zero-size array to reduction operation" := by
    rw [hstep, hnil]
    simp only [regressStep, if_pos rfl]
    rfl
  refine ⟨_, hcp, ?_, ?_⟩
  · simp only [renderApp, hcp]
  · simp only [renderApp, hcp, pageShowsResults]

/-- Witness for C6 on two concrete 2-point price series with disjoint
dates. -/
theorem emptyOverlapSurfacesError_witness :
    (∀ d, d ∈ ([(0, 1), (1, 2)] : List (ℕ × ℝ)).map Prod.fst →
      d ∉ ([(2, 3), (3, 4)] : List (ℕ × ℝ)).map Prod.fst) ∧
    ∃ e, computePass (Except.ok [(0, 1), (1, 2)]) (Except.ok [(2, 3), (3, 4)]) 6 =
        Except.error e ∧
      renderApp (Except.ok [(0, 1), (1, 2)]) (Except.ok [(2, 3), (3, 4)]) 6 =
        Page.errorPage ("An error occurred: " ++ e)
          "Please check if the stock symbol is valid and try again." ∧
      pageShowsResults
        (renderApp (Except.ok [(0, 1), (1, 2)]) (Except.ok [(2, 3), (3, 4)]) 6) = false := by
  have hdisj : ∀ d, d ∈ ([(0, 1), (1, 2)] : List (ℕ × ℝ)).map Prod.fst →
      d ∉ ([(2, 3), (3, 4)] : List (ℕ × ℝ)).map Prod.fst := by
    intro d hd hdm
    simp only [List.map_cons, List.map_nil, List.mem_cons, List.not_mem_nil,
      or_false] at hd hdm
    omega
  exact ⟨hdisj, emptyOverlapSurfacesError [(0, 1), (1, 2)] [(2, 3), (3, 4)] 6 (Or.inl hdisj)⟩

/-- C9: the single `try/except` boundary is total: a failing pass always
renders exactly the generic error banner with the symbol hint and no
metrics or charts, and a successful pass always renders the full results
page built from the one computed model — no error escapes and no partial
result is shown. -/
theorem errorBoundaryCatchesAll (sf mf : Except String (List (ℕ × ℝ))) (r : ℝ) :
    (∀ e, computePass sf mf r = Except.error e →
      renderApp sf mf r =
        Page.errorPage ("An error occurred: " ++ e)
          "Please check if the stock symbol is valid and try again." ∧
      pageShowsResults (renderApp sf mf r) = false) ∧
    ∀ out, computePass sf mf r = Except.ok out →
      renderApp sf mf r =
        Page.resultsPage out.1 (displayedMetrics out.1.1 out.1.2.1 out.1.2.2)
          (betaInterpretation out.1.1) (alphaInterpretation out.1.2.1)
          (makeScatterFig out.2) out.2 ∧
      pageShowsResults (renderApp sf mf r) = true := by
  constructor
  · intro e he
    constructor
    · simp only [renderApp, he]
    · simp only [renderApp, he, pageShowsResults]
  · intro out hout
    obtain ⟨m, rows⟩ := out
    constructor
    · simp only [renderApp, hout]
    · simp only [renderApp, hout, pageShowsResults]

/-- Witness for C9: a failing fetch is converted to the error banner. -/
theorem errorBoundaryCatchesAll_witness :
    computePass (Except.error "boom") (Except.ok ([] : List (ℕ × ℝ))) 6 =
      Except.error "boom" ∧
    renderApp (Except.error "boom") (Except.ok ([] : List (ℕ × ℝ))) 6 =
      Page.errorPage ("An error occurred: " ++ "boom")
        "Please check if the stock symbol is valid and try again." ∧
    pageShowsResults (renderApp (Except.error "boom") (Except.ok ([] : List (ℕ × ℝ))) 6) =
      false := by
  have hcp : computePass (Except.error "boom") (Except.ok ([] : List (ℕ × ℝ))) 6 =
      Except.error "boom" := rfl
  have h := (errorBoundaryCatchesAll (Except.error "boom")
    (Except.ok ([] : List (ℕ × ℝ))) 6).1 "boom" hcp
  exact ⟨hcp, h.1, h.2⟩

lemma makeScatterFig_xs (rows : List (ℕ × ℝ × ℝ)) :
    (makeScatterFig rows).xs = rows.map (fun p => p.2.2) := by
  simp [makeScatterFig, List.map_map]

lemma makeScatterFig_ys (rows : List (ℕ × ℝ × ℝ)) :
    (makeScatterFig rows).ys = rows.map (fun p => p.2.1) := by
  simp [makeScatterFig, List.map_map]

lemma makeScatterFig_trendSlope (rows : List (ℕ × ℝ × ℝ)) :
    (makeScatterFig rows).trendSlope = olsBeta (rows.map (fun p => (p.2.2, p.2.1))) := rfl

lemma makeScatterFig_trendIntercept (rows : List (ℕ × ℝ × ℝ)) :
    (makeScatterFig rows).trendIntercept = olsAlpha (rows.map (fun p => (p.2.2, p.2.1))) := rfl

/-- Counterexample to C8 as stated: at the source's default rate 6 the
plotted x column is the raw market return column, which differs from the
excess market return column on a concrete 2-row data set (the periodic
rate is strictly positive, so subtracting `periodic_rate * 100` moves
every value). -/
theorem scatterPlotsRawNotExcess :
    (makeScatterFig [(0, 2, 3), (1, 5, 7)]).xs ≠
      (excessData 6 [(0, 2, 3), (1, 5, 7)]).map Prod.fst := by
  intro h
  have hpow : (1 : ℝ) < (1 + 6 / 100) ^ ((1 : ℝ) / 12) := by
    rw [Real.one_lt_rpow_iff_of_pos (by norm_num)]
    norm_num
  have hc : 0 < riskFreeRateMonthly 6 := by
    rw [riskFreeRateMonthly]
    linarith
  rw [makeScatterFig_xs] at h
  simp only [excessData, excessReturn, List.map_map, List.map_cons, List.map_nil,
    List.cons.injEq, and_true] at h
  obtain ⟨h1, -⟩ := h
  nlinarith [hc, h1]

/-- C8 amended: the scatter figure plots the raw market return on x and
the raw stock return on y, and its `trendline="ols"` line is the
least-squares fit of the raw stock column on the raw market column. -/
theorem scatterUsesRawReturns (rows : List (ℕ × ℝ × ℝ)) (hne : rows ≠ [])
    (hd : olsDenom (rows.map (fun p => (p.2.2, p.2.1))) ≠ 0) :
    (makeScatterFig rows).xs = rows.map (fun p => p.2.2) ∧
    (makeScatterFig rows).ys = rows.map (fun p => p.2.1) ∧
    ∀ a b : ℝ,
      sse (rows.map (fun p => (p.2.2, p.2.1)))
          (makeScatterFig rows).trendIntercept (makeScatterFig rows).trendSlope ≤
        sse (rows.map (fun p => (p.2.2, p.2.1))) a b := by
  have hne2 : rows.map (fun p => (p.2.2, p.2.1)) ≠ [] := by
    intro hmap
    exact hne (List.map_eq_nil_iff.mp hmap)
  refine ⟨makeScatterFig_xs rows, makeScatterFig_ys rows, ?_⟩
  intro a b
  rw [makeScatterFig_trendSlope, makeScatterFig_trendIntercept]
  exact sse_ols_le _ hne2 hd a b

/-- Witness for the amended C8 on a concrete 2-row data set. -/
theorem scatterUsesRawReturns_witness :
    (([(0, 2, 3), (1, 5, 7)] : List (ℕ × ℝ × ℝ)) ≠ []) ∧
    olsDenom (([(0, 2, 3), (1, 5, 7)] : List (ℕ × ℝ × ℝ)).map
      (fun p => (p.2.2, p.2.1))) ≠ 0 ∧
    ((makeScatterFig [(0, 2, 3), (1, 5, 7)]).xs =
        ([(0, 2, 3), (1, 5, 7)] : List (ℕ × ℝ × ℝ)).map (fun p => p.2.2) ∧
      (makeScatterFig [(0, 2, 3), (1, 5, 7)]).ys =
        ([(0, 2, 3), (1, 5, 7)] : List (ℕ × ℝ × ℝ)).map (fun p => p.2.1) ∧
      ∀ a b : ℝ,
        sse (([(0, 2, 3), (1, 5, 7)] : List (ℕ × ℝ × ℝ)).map (fun p => (p.2.2, p.2.1)))
            (makeScatterFig [(0, 2, 3), (1, 5, 7)]).trendIntercept
            (makeScatterFig [(0, 2, 3), (1, 5, 7)]).trendSlope ≤
          sse (([(0, 2, 3), (1, 5, 7)] : List (ℕ × ℝ × ℝ)).map (fun p => (p.2.2, p.2.1)))
            a b) := by
  have hne : ([(0, 2, 3), (1, 5, 7)] : List (ℕ × ℝ × ℝ)) ≠ [] := by simp
  have hd : olsDenom (([(0, 2, 3), (1, 5, 7)] : List (ℕ × ℝ × ℝ)).map
      (fun p => (p.2.2, p.2.1))) ≠ 0 := by
    simp only [List.map_cons, List.map_nil, olsDenom, sumXX, sumX, List.sum_cons,
      List.sum_nil, List.length_cons, List.length_nil]
    norm_num
  exact ⟨hne, hd, scatterUsesRawReturns [(0, 2, 3), (1, 5, 7)] hne hd⟩

end Jensen
